import Mathlib

/-!
Verification of the spatial-optimization script (spatial_optimization.py).

The script converts geographic coordinates (degrees) into a local planar frame
(kilometers) through an equirectangular small-distance approximation, builds a
weighted squared-distance objective over reference points, solves for the
unconstrained optimum by setting the gradient to zero, solves the constrained
optimum on a line through Lagrange multipliers, and maps results back to
degrees.  Real-number arithmetic stands in for Python floats; claims stated
"to floating-point tolerance" become exact equalities over ℝ.
-/

namespace SpatialOpt

/-! ### Definitions -/

/-- Forward projection, translated from the function deg_to_kms of the source:
converts global coordinates of a point in degrees to local coordinates in
kilometers relative to the origin, using the equirectangular small-distance
approximation with Earth radius 6371.0 km. -/
noncomputable def deg_to_kms (point_long point_lat origin_long origin_lat : ℝ) : ℝ × ℝ :=
  let earth_radius : ℝ := 6371.0
  let long := point_long * Real.pi / 180
  let reference_long := origin_long * Real.pi / 180
  let lat := point_lat * Real.pi / 180
  let reference_lat := origin_lat * Real.pi / 180
  let long_difference_rad := long - reference_long
  let lat_difference_rad := lat - reference_lat
  let diff_long := earth_radius * long_difference_rad * Real.cos reference_lat
  let diff_lat := earth_radius * lat_difference_rad
  (diff_long, diff_lat)

/-- Inverse projection, translated from the function kms_to_deg of the source:
converts local coordinates in kilometers back to global coordinates in
degrees.  The longitude branch divides by earth_radius * cos(reference_lat). -/
noncomputable def kms_to_deg (local_x local_y origin_long origin_lat : ℝ) : ℝ × ℝ :=
  let earth_radius : ℝ := 6371.0
  let reference_lat_rad := origin_lat * Real.pi / 180
  let long_difference_rad := local_x / (earth_radius * Real.cos reference_lat_rad)
  let lat_difference_rad := local_y / earth_radius
  let diff_long_deg := long_difference_rad * 180 / Real.pi
  let diff_lat_deg := lat_difference_rad * 180 / Real.pi
  let point_long := origin_long + diff_long_deg
  let point_lat := origin_lat + diff_lat_deg
  (point_long, point_lat)

/-- A weighted reference point of the objective: local coordinates (x, y) in
kilometers and a weight.  The source hard-codes three such points with
weights 1, 2, 3 at lines 112-114; the list generalizes that data shape. -/
structure RefPoint where
  x : ℝ
  y : ℝ
  w : ℝ

/-- The utility function U of source lines 112-114: the sum over the
reference points of weight times squared Euclidean distance to (p.1, p.2). -/
def Uval (pts : List RefPoint) (p : ℝ × ℝ) : ℝ :=
  (pts.map (fun a => a.w * ((p.1 - a.x) ^ 2 + (p.2 - a.y) ^ 2))).sum

/-- The gradient of U, the pair (diff U x, diff U y) computed symbolically at
source lines 118-119; each weighted term (p - a)^2 differentiates to
2 * w * (p - a).  The lemmas hasDerivAt_Uval_fst and hasDerivAt_Uval_snd
below certify that these are the partial derivatives of Uval. -/
def gradU (pts : List RefPoint) (p : ℝ × ℝ) : ℝ × ℝ :=
  ((pts.map (fun a => 2 * a.w * (p.1 - a.x))).sum,
   (pts.map (fun a => 2 * a.w * (p.2 - a.y))).sum)

/-- Total weight of the reference points. -/
def sumW (pts : List RefPoint) : ℝ := (pts.map (fun a => a.w)).sum

/-- Weighted sum of the x coordinates. -/
def sumWX (pts : List RefPoint) : ℝ := (pts.map (fun a => a.w * a.x)).sum

/-- Weighted sum of the y coordinates. -/
def sumWY (pts : List RefPoint) : ℝ := (pts.map (fun a => a.w * a.y)).sum

/-- Weighted sum of the squared norms of the reference points. -/
def sumWQ (pts : List RefPoint) : ℝ := (pts.map (fun a => a.w * (a.x ^ 2 + a.y ^ 2))).sum

/-- The weighted centroid, the closed form the spec gives for the
unconstrained optimum. -/
noncomputable def centroid (pts : List RefPoint) : ℝ × ℝ :=
  (sumWX pts / sumW pts, sumWY pts / sumW pts)

/-- The Lagrange stationarity system of source lines 133-145: with the
constraint g = y - m*x - b, grad g = (-m, 1), the solved equations are
lagrange_eq1 = dU/dx - L * (-m) = 0, lagrange_eq2 = dU/dy - L * 1 = 0 and
g = 0.  A pair (p, lam) satisfies the system exactly when the symbolic
solve of the source returns it. -/
def LagrangeSystem (pts : List RefPoint) (m b : ℝ) (p : ℝ × ℝ) (lam : ℝ) : Prop :=
  (gradU pts p).1 - lam * (-m) = 0 ∧
  (gradU pts p).2 - lam * 1 = 0 ∧
  p.2 - m * p.1 - b = 0

/-- Orthogonal Euclidean projection of a point c onto the line y = m*x + b.
Spec-side closed form for the implicit claim that the constrained optimum is
the projection of the weighted centroid onto the constraint line. -/
noncomputable def orthProj (m b : ℝ) (c : ℝ × ℝ) : ℝ × ℝ :=
  let t := (c.1 + m * (c.2 - b)) / (1 + m ^ 2)
  (t, m * t + b)

/-- The test fixture of the spec: points (0,0), (10,0), (0,10) with weights
1, 2, 3; its weighted centroid is (20/6, 30/6). -/
def pts3 : List RefPoint := [⟨0, 0, 1⟩, ⟨10, 0, 2⟩, ⟨0, 10, 3⟩]

/-- A reference list with total weight zero (weights 1 and -1), used to
exercise the zero-total-weight edge case of the gradient system. -/
def ptsZeroW : List RefPoint := [⟨0, 0, 1⟩, ⟨1, 0, -1⟩]

/-- Slope computation of source line 129, m_slope = (res_y - ho_y) /
(res_x - ho_x), with the Python float-division semantics made explicit: a
zero denominator raises ZeroDivisionError, modelled as an error value.  No
guard precedes the division in the code. -/
noncomputable def m_slope (res_x res_y ho_x ho_y : ℝ) : Except String ℝ :=
  if res_x - ho_x = 0 then Except.error "ZeroDivisionError"
  else Except.ok ((res_y - ho_y) / (res_x - ho_x))

/-- The result shapes the sympy constrained solve can take, as branched on at
source lines 160-165: a list of coordinate tuples, a dict from the symbols
x and y to coordinates (none when the keys are missing), or any other
shape. -/
inductive ConsSolveResult where
  | list (elems : List (ℝ × ℝ))
  | dict (entries : Option (ℝ × ℝ))
  | other

/-- Result extraction of source lines 160-169: a list result is subscripted
at [0][0] and [0][1] (IndexError when the list is empty), a dict result at
the symbols x and y (KeyError when the keys are absent); under any other
shape the names cons_x_local and cons_y_local are never bound and the later
conversion to degrees raises NameError. -/
def extract_constrained : ConsSolveResult → Except String (ℝ × ℝ)
  | ConsSolveResult.list [] => Except.error "IndexError"
  | ConsSolveResult.list (p :: _) => Except.ok p
  | ConsSolveResult.dict none => Except.error "KeyError"
  | ConsSolveResult.dict (some p) => Except.ok p
  | ConsSolveResult.other => Except.error "NameError"

/-! ### Expansion lemmas for the objective and its gradient -/

lemma Uval_expand (pts : List RefPoint) (p : ℝ × ℝ) :
    Uval pts p = sumW pts * (p.1 ^ 2 + p.2 ^ 2) - 2 * sumWX pts * p.1 -
      2 * sumWY pts * p.2 + sumWQ pts := by
  induction pts with
  | nil => simp [Uval, sumW, sumWX, sumWY, sumWQ]
  | cons a l ih =>
      simp only [Uval, sumW, sumWX, sumWY, sumWQ, List.map_cons, List.sum_cons] at ih ⊢
      rw [ih]
      ring

lemma gradU_fst (pts : List RefPoint) (p : ℝ × ℝ) :
    (gradU pts p).1 = 2 * (sumW pts * p.1 - sumWX pts) := by
  induction pts with
  | nil => simp [gradU, sumW, sumWX]
  | cons a l ih =>
      simp only [gradU, sumW, sumWX, List.map_cons, List.sum_cons] at ih ⊢
      rw [ih]
      ring

lemma gradU_snd (pts : List RefPoint) (p : ℝ × ℝ) :
    (gradU pts p).2 = 2 * (sumW pts * p.2 - sumWY pts) := by
  induction pts with
  | nil => simp [gradU, sumW, sumWY]
  | cons a l ih =>
      simp only [gradU, sumW, sumWY, List.map_cons, List.sum_cons] at ih ⊢
      rw [ih]
      ring

/-- The first component of gradU is the derivative of U in its first
argument, certifying the symbolic diff(U, x) of source line 118. -/
lemma hasDerivAt_Uval_fst (pts : List RefPoint) (x0 y0 : ℝ) :
    HasDerivAt (fun t => Uval pts (t, y0)) (gradU pts (x0, y0)).1 x0 := by
  induction pts with
  | nil => simpa [Uval, gradU] using hasDerivAt_const x0 (0 : ℝ)
  | cons a l ih =>
      have hx : HasDerivAt (fun t : ℝ => t - a.x) 1 x0 := (hasDerivAt_id x0).sub_const a.x
      have hsq : HasDerivAt (fun t : ℝ => (t - a.x) ^ 2) (2 * (x0 - a.x)) x0 := by
        simpa using hx.pow 2
      have hterm : HasDerivAt (fun t : ℝ => a.w * ((t - a.x) ^ 2 + (y0 - a.y) ^ 2))
          (a.w * (2 * (x0 - a.x))) x0 := (hsq.add_const ((y0 - a.y) ^ 2)).const_mul a.w
      have hsum := hterm.add ih
      have hfun : (fun t => Uval (a :: l) (t, y0)) =
          fun t => a.w * ((t - a.x) ^ 2 + (y0 - a.y) ^ 2) + Uval l (t, y0) := by
        funext t
        simp [Uval]
      rw [hfun]
      convert hsum using 1
      simp only [gradU, List.map_cons, List.sum_cons]
      ring

/-- The second component of gradU is the derivative of U in its second
argument, certifying the symbolic diff(U, y) of source line 119. -/
lemma hasDerivAt_Uval_snd (pts : List RefPoint) (x0 y0 : ℝ) :
    HasDerivAt (fun t => Uval pts (x0, t)) (gradU pts (x0, y0)).2 y0 := by
  induction pts with
  | nil => simpa [Uval, gradU] using hasDerivAt_const y0 (0 : ℝ)
  | cons a l ih =>
      have hy : HasDerivAt (fun t : ℝ => t - a.y) 1 y0 := (hasDerivAt_id y0).sub_const a.y
      have hsq : HasDerivAt (fun t : ℝ => (t - a.y) ^ 2) (2 * (y0 - a.y)) y0 := by
        simpa using hy.pow 2
      have hterm : HasDerivAt (fun t : ℝ => a.w * ((x0 - a.x) ^ 2 + (t - a.y) ^ 2))
          (a.w * (2 * (y0 - a.y))) y0 := by
        have := (hsq.const_add ((x0 - a.x) ^ 2)).const_mul a.w
        simpa using this
      have hsum := hterm.add ih
      have hfun : (fun t => Uval (a :: l) (x0, t)) =
          fun t => a.w * ((x0 - a.x) ^ 2 + (t - a.y) ^ 2) + Uval l (x0, t) := by
        funext t
        simp [Uval]
      rw [hfun]
      convert hsum using 1
      simp only [gradU, List.map_cons, List.sum_cons]
      ring

/-! ### Claims about the unconstrained solve -/

/-- C1: for positive total weight, the gradient-zero system solved at source
lines 118-122 has exactly the weighted centroid as solution: gradient zero
at p holds if and only if p is the weighted centroid closed form of the
spec. -/
theorem unconstrained_sol_eq_centroid (pts : List RefPoint) (hW : 0 < sumW pts)
    (p : ℝ × ℝ) : gradU pts p = (0, 0) ↔ p = centroid pts := by
  have hW0 : sumW pts ≠ 0 := ne_of_gt hW
  constructor
  · intro h
    have e1 : (gradU pts p).1 = 0 := by rw [h]
    have e2 : (gradU pts p).2 = 0 := by rw [h]
    rw [gradU_fst] at e1
    rw [gradU_snd] at e2
    have hx : p.1 = sumWX pts / sumW pts := by
      field_simp
      linarith
    have hy : p.2 = sumWY pts / sumW pts := by
      field_simp
      linarith
    exact Prod.ext hx hy
  · intro h
    rw [h]
    refine Prod.ext ?_ ?_
    · rw [gradU_fst]
      simp only [centroid]
      field_simp
    · rw [gradU_snd]
      simp only [centroid]
      field_simp

/-- Witness for C1 on the test fixture of the spec: weights 1, 2, 3 at
(0,0), (10,0), (0,10); gradient zero at (20/6, 30/6) iff that point is the
centroid. -/
theorem unconstrained_sol_eq_centroid_witness :
    gradU pts3 ((20 : ℝ) / 6, (30 : ℝ) / 6) = (0, 0) ↔
      ((20 : ℝ) / 6, (30 : ℝ) / 6) = centroid pts3 :=
  unconstrained_sol_eq_centroid pts3 (by norm_num [sumW, pts3]) ((20 : ℝ) / 6, (30 : ℝ) / 6)

/-- C7 evidence: on a reference list with total weight zero the gradient-zero
system solved by the code has no solution at all, so the solve cannot
return a point; the script has no zero-weight guard and instead fails later
when it subscripts the empty solution set, not with a domain error. -/
theorem zero_total_weight_no_solution :
    sumW ptsZeroW = 0 ∧ ∀ p : ℝ × ℝ, gradU ptsZeroW p ≠ (0, 0) := by
  constructor
  · norm_num [sumW, ptsZeroW]
  · intro p h
    have h1 : (gradU ptsZeroW p).1 = 0 := by rw [h]
    rw [gradU_fst] at h1
    norm_num [sumW, sumWX, ptsZeroW] at h1

/-! ### The Lagrange system of the constrained solve -/

/-- Any solution of the Lagrange system pins the first coordinate down to the
linear relation W * (1 + m^2) * p.1 = Sx + m * Sy - m * b * W. -/
lemma lagrange_p1 (pts : List RefPoint) (m b : ℝ) (p : ℝ × ℝ) (lam : ℝ)
    (hsys : LagrangeSystem pts m b p lam) :
    sumW pts * ((1 + m ^ 2) * p.1) = sumWX pts + m * sumWY pts - m * b * sumW pts := by
  obtain ⟨h1, h2, h3⟩ := hsys
  rw [gradU_fst] at h1
  rw [gradU_snd] at h2
  have hp2 : p.2 = m * p.1 + b := by linarith
  rw [hp2] at h2
  linear_combination (1 / 2) * h1 + (m / 2) * h2

/-- The Lagrange system always has a solution when the total weight is
positive: the orthogonal projection of the centroid, with the matching
multiplier. -/
lemma lagrange_exists (pts : List RefPoint) (m b : ℝ) (hW : 0 < sumW pts) :
    ∃ p lam, LagrangeSystem pts m b p lam := by
  have hW0 : sumW pts ≠ 0 := ne_of_gt hW
  have hm : (1 : ℝ) + m ^ 2 ≠ 0 := by positivity
  refine ⟨orthProj m b (centroid pts),
    2 * (sumW pts * (orthProj m b (centroid pts)).2 - sumWY pts), ?_, ?_, ?_⟩
  · rw [gradU_fst]
    simp only [orthProj, centroid]
    field_simp
    ring
  · rw [gradU_snd]
    ring
  · simp only [orthProj]
    ring

/-- Any solution of the Lagrange system is a strict minimizer of the
objective among the other points of the constraint line. -/
lemma lagrange_strict_min (pts : List RefPoint) (m b : ℝ) (p : ℝ × ℝ) (lam : ℝ)
    (hW : 0 < sumW pts) (hsys : LagrangeSystem pts m b p lam) (q : ℝ × ℝ)
    (hq : q.2 = m * q.1 + b) (hne : q ≠ p) : Uval pts p < Uval pts q := by
  obtain ⟨h1, h2, h3⟩ := hsys
  rw [gradU_fst] at h1
  rw [gradU_snd] at h2
  have hp2 : p.2 = m * p.1 + b := by linarith
  rw [hp2] at h2
  have key : Uval pts q = Uval pts p + sumW pts * (1 + m ^ 2) * (q.1 - p.1) ^ 2 := by
    rw [Uval_expand, Uval_expand, hq, hp2]
    linear_combination (q.1 - p.1) * h1 + (m * (q.1 - p.1)) * h2
  have hd : q.1 - p.1 ≠ 0 := by
    intro h0
    apply hne
    have hq1 : q.1 = p.1 := by linarith [sub_eq_zero.mp h0]
    exact Prod.ext hq1 (by rw [hq, hp2, hq1])
  have hsq : 0 < (q.1 - p.1) ^ 2 := (sq_nonneg _).lt_of_ne (Ne.symm (pow_ne_zero 2 hd))
  have hm : (0 : ℝ) < 1 + m ^ 2 := by positivity
  nlinarith [key, mul_pos (mul_pos hW hm) hsq]

/-- C2: for positive total weight the Lagrange system of the constrained
solve is solvable, every solution point lies exactly on the constraint line
y = m*x + b, and every solution point is the unique minimizer of the
objective among the points of that line. -/
theorem constrained_sol_on_line_unique_min (pts : List RefPoint) (m b : ℝ)
    (hW : 0 < sumW pts) :
    (∃ p lam, LagrangeSystem pts m b p lam) ∧
    ∀ p lam, LagrangeSystem pts m b p lam →
      p.2 = m * p.1 + b ∧
      ∀ q : ℝ × ℝ, q.2 = m * q.1 + b → q ≠ p → Uval pts p < Uval pts q := by
  refine ⟨lagrange_exists pts m b hW, fun p lam hsys => ⟨?_, ?_⟩⟩
  · have h3 := hsys.2.2
    linarith
  · exact fun q hq hne => lagrange_strict_min pts m b p lam hW hsys q hq hne

/-- Witness for C2 on the test fixture of the spec: weights 1, 2, 3 and the
line of slope 1 through the origin. -/
theorem constrained_sol_on_line_unique_min_witness :
    (∃ p lam, LagrangeSystem pts3 1 0 p lam) ∧
    ∀ p lam, LagrangeSystem pts3 1 0 p lam →
      p.2 = 1 * p.1 + 0 ∧
      ∀ q : ℝ × ℝ, q.2 = 1 * q.1 + 0 → q ≠ p → Uval pts3 p < Uval pts3 q :=
  constrained_sol_on_line_unique_min pts3 1 0 (by norm_num [sumW, pts3])

/-- C9: the objective rewrites as total weight times the squared distance to
the weighted centroid plus a constant, and consequently every solution of
the Lagrange system equals the orthogonal projection of the weighted
centroid onto the constraint line. -/
theorem constrained_sol_is_projection (pts : List RefPoint) (m b : ℝ)
    (hW : 0 < sumW pts) :
    (∃ C : ℝ, ∀ q : ℝ × ℝ,
      Uval pts q = sumW pts * ((q.1 - (centroid pts).1) ^ 2 + (q.2 - (centroid pts).2) ^ 2) + C) ∧
    ∀ p lam, LagrangeSystem pts m b p lam → p = orthProj m b (centroid pts) := by
  have hW0 : sumW pts ≠ 0 := ne_of_gt hW
  have hm : (1 : ℝ) + m ^ 2 ≠ 0 := by positivity
  constructor
  · refine ⟨sumWQ pts - (sumWX pts ^ 2 + sumWY pts ^ 2) / sumW pts, fun q => ?_⟩
    rw [Uval_expand]
    simp only [centroid]
    field_simp
    ring
  · intro p lam hsys
    have hp1 := lagrange_p1 pts m b p lam hsys
    obtain ⟨h1, h2, h3⟩ := hsys
    have hp2 : p.2 = m * p.1 + b := by linarith
    have ht : p.1 = (orthProj m b (centroid pts)).1 := by
      simp only [orthProj, centroid]
      field_simp
      linear_combination hp1
    refine Prod.ext ht ?_
    rw [hp2, ht]
    simp only [orthProj]

/-- Witness for C9 on the test fixture of the spec: weights 1, 2, 3 and the
line of slope 1 through the origin; the projected centroid is (25/6, 25/6). -/
theorem constrained_sol_is_projection_witness :
    (∃ C : ℝ, ∀ q : ℝ × ℝ,
      Uval pts3 q =
        sumW pts3 * ((q.1 - (centroid pts3).1) ^ 2 + (q.2 - (centroid pts3).2) ^ 2) + C) ∧
    ∀ p lam, LagrangeSystem pts3 1 0 p lam → p = orthProj 1 0 (centroid pts3) :=
  constrained_sol_is_projection pts3 1 0 (by norm_num [sumW, pts3])

/-! ### Claims about the degenerate slope and result extraction -/

/-- C5 evidence: when the two constraint endpoints share an x coordinate the
slope computation of source line 129 performs an unguarded division by
zero: the script stops with ZeroDivisionError, with no DomainError and no
vertical-line special case. -/
theorem m_slope_vertical_divzero (c res_y ho_y : ℝ) :
    m_slope c res_y c ho_y = Except.error "ZeroDivisionError" := by
  simp [m_slope]

/-- C10: extraction of the constrained solution succeeds exactly when the
solve result is a non-empty list or a dict carrying the keys x and y, and
any shape other than a list or a dict leaves the local names unbound so the
pipeline fails with NameError. -/
theorem extract_constrained_totality :
    (∀ r : ConsSolveResult, (∃ p, extract_constrained r = Except.ok p) ↔
      ((∃ p l, r = ConsSolveResult.list (p :: l)) ∨
        (∃ p, r = ConsSolveResult.dict (some p)))) ∧
    extract_constrained ConsSolveResult.other = Except.error "NameError" := by
  constructor
  · intro r
    cases r with
    | list l => cases l <;> simp [extract_constrained]
    | dict o => cases o <;> simp [extract_constrained]
    | other => simp [extract_constrained]
  · rfl

/-! ### Claims about the coordinate projections -/

/-- C4: deg_to_kms returns dx = R * Δlong_rad * cos(origin_lat_rad) and
dy = R * Δlat_rad with R = 6371.0, where the angle differences are the
point-minus-origin differences converted from degrees to radians. -/
theorem deg_to_kms_eq_equirectangular (point_long point_lat origin_long origin_lat : ℝ) :
    deg_to_kms point_long point_lat origin_long origin_lat =
      (6371.0 * ((point_long - origin_long) * Real.pi / 180) *
          Real.cos (origin_lat * Real.pi / 180),
        6371.0 * ((point_lat - origin_lat) * Real.pi / 180)) := by
  simp only [deg_to_kms, Prod.mk.injEq]
  constructor <;> ring

/-- C3: the forward and inverse projections about a common origin are mutually
inverse whenever the cosine of the origin latitude is nonzero: composing
deg_to_kms then kms_to_deg recovers the geographic point, and composing
kms_to_deg then deg_to_kms recovers the local point, exactly over ℝ. -/
theorem proj_round_trip (point_long point_lat local_x local_y origin_long origin_lat : ℝ)
    (h : Real.cos (origin_lat * Real.pi / 180) ≠ 0) :
    kms_to_deg (deg_to_kms point_long point_lat origin_long origin_lat).1
        (deg_to_kms point_long point_lat origin_long origin_lat).2 origin_long origin_lat =
      (point_long, point_lat) ∧
    deg_to_kms (kms_to_deg local_x local_y origin_long origin_lat).1
        (kms_to_deg local_x local_y origin_long origin_lat).2 origin_long origin_lat =
      (local_x, local_y) := by
  have hpi : Real.pi ≠ 0 := Real.pi_ne_zero
  constructor
  · simp only [deg_to_kms, kms_to_deg, Prod.mk.injEq]
    constructor
    · field_simp
      ring
    · field_simp
      ring
  · simp only [deg_to_kms, kms_to_deg, Prod.mk.injEq]
    constructor
    · field_simp
      ring
    · field_simp
      ring

/-- Witness for C3 at the concrete point (1, 2), local point (3, 4) and
origin (5, 0): the cosine hypothesis holds since cos 0 = 1. -/
theorem proj_round_trip_witness :
    kms_to_deg (deg_to_kms 1 2 5 0).1 (deg_to_kms 1 2 5 0).2 5 0 = (1, 2) ∧
    deg_to_kms (kms_to_deg 3 4 5 0).1 (kms_to_deg 3 4 5 0).2 5 0 = (3, 4) :=
  proj_round_trip 1 2 3 4 5 0 (by simp)

/-- C8: the local point (0, 0) corresponds exactly to the origin: projecting
the origin about itself gives (0, 0), and inverting (0, 0) about the origin
gives the origin back.  The hypothesis records that the inverse projection
divides by the cosine of the origin latitude, so the origin is not a pole. -/
theorem origin_maps_to_zero (origin_long origin_lat : ℝ)
    (h : Real.cos (origin_lat * Real.pi / 180) ≠ 0) :
    deg_to_kms origin_long origin_lat origin_long origin_lat = (0, 0) ∧
    kms_to_deg 0 0 origin_long origin_lat = (origin_long, origin_lat) := by
  constructor
  · simp [deg_to_kms]
  · simp [kms_to_deg]

/-- Witness for C8 at the concrete origin (5, 0). -/
theorem origin_maps_to_zero_witness :
    deg_to_kms 5 0 5 0 = (0, 0) ∧ kms_to_deg 0 0 5 0 = (5, 0) :=
  origin_maps_to_zero 5 0 (by simp)

/-- C6 evidence: with the origin latitude at 90 degrees (an exact pole,
cos(lat_rad) = 0) the forward projection silently returns a degenerate
result with dx = 0 for every input point, instead of failing with a domain
error: no guard exists in the code. -/
theorem deg_to_kms_at_pole_silently_returns (point_long point_lat origin_long : ℝ) :
    deg_to_kms point_long point_lat origin_long 90 =
      (0, 6371.0 * (point_lat * Real.pi / 180 - 90 * Real.pi / 180)) := by
  have h90 : (90 : ℝ) * Real.pi / 180 = Real.pi / 2 := by ring
  simp only [deg_to_kms, h90, Real.cos_pi_div_two, mul_zero, Prod.mk.injEq]

end SpatialOpt
